import Mathlib

/-!
Verification of the claudia session supervisor
(`src/claudia-server/src/process.rs` and `src/claudia-server/src/websocket.rs`).

The Rust code is shallowly embedded: each Rust function the claims mention is
translated to an executable Lean definition over a pure data model.  Timestamps
(`chrono::DateTime<Utc>`) are modelled as `Nat` seconds; the tokio `Child`
process handle is modelled as `Option Unit` (only its presence/absence matters
for the take-once discipline); the session registry (`HashMap<String, ...>`)
is modelled as an association list with unique keys.
-/

namespace Claudia

/-- Embeds `enum SessionStatus` from process.rs. -/
inductive SessionStatus where
  | Starting
  | Running
  | Completed
  | Failed
  | Cancelled
  | Terminated
deriving DecidableEq, Repr

/-- Embeds `struct SessionInfo` from process.rs.  `started_at`/`completed_at`
are `Nat` seconds; `pid` is an optional numeric process id. -/
structure SessionInfo where
  id : String
  project_path : String
  model : String
  prompt : String
  status : SessionStatus
  pid : Option Nat
  started_at : Nat
  completed_at : Option Nat
  exit_code : Option Int
  claude_session_id : Option String
  output_preview : String
deriving DecidableEq, Repr

/-- Embeds `struct ProcessStats` from process.rs. -/
structure ProcessStats where
  active_sessions : Nat
  total_sessions : Nat
  completed_sessions : Nat
  failed_sessions : Nat
  uptime_seconds : Nat
deriving DecidableEq, Repr

/-- Embeds `struct SessionData` from process.rs: the per-session mutable cell.
`child` is the take-once process-handle slot (`Option<Child>` in the source). -/
structure SessionData where
  info : SessionInfo
  child : Option Unit
  output_buffer : List String
deriving DecidableEq, Repr

/-- The `matches!(status, Starting | Running)` test used throughout process.rs. -/
def isActiveStatus (s : SessionStatus) : Bool :=
  match s with
  | .Starting | .Running => true
  | _ => false

/-- The `matches!(status, Completed | Failed | Cancelled | Terminated)` test of
`cleanup_completed_sessions`. -/
def isTerminalStatus (s : SessionStatus) : Bool :=
  match s with
  | .Completed | .Failed | .Cancelled | .Terminated => true
  | _ => false

/-!
Output buffer.  Both stream-reader tasks in `monitor_session_output`
(process.rs lines 412-457) append to the shared buffer with the same code:

    buffer.push(line);
    if buffer.len() > 1000 { let drain_count = buffer.len() - 1000;
                             buffer.drain(0..drain_count); }

`Vec::drain(0..drain_count)` removes the first `drain_count` elements,
i.e. `List.drop drain_count`.
-/

/-- One append to the bounded output buffer, exactly as both stream readers
perform it under the buffer lock. -/
def pushOutputLine (buffer : List String) (line : String) : List String :=
  let buffer := buffer ++ [line]
  if buffer.length > 1000 then
    buffer.drop (buffer.length - 1000)
  else
    buffer

/-- The buffer obtained by appending the lines `xs` in order, starting from the
empty buffer created in `start_session`.  Any interleaving of the stdout and
stderr readers is some such sequence `xs`, because each append is atomic under
the buffer mutex. -/
def runBuffer (xs : List String) : List String :=
  xs.foldl pushOutputLine []

theorem pushOutputLine_eq (buffer : List String) (line : String) :
    pushOutputLine buffer line =
      if buffer.length + 1 > 1000 then
        (buffer ++ [line]).drop (buffer.length + 1 - 1000)
      else buffer ++ [line] := by
  simp [pushOutputLine]

theorem runBuffer_eq_drop (xs : List String) :
    runBuffer xs = xs.drop (xs.length - 1000) := by
  induction xs using List.reverseRecOn with
  | nil => simp [runBuffer]
  | append_singleton l a ih =>
    have hstep : runBuffer (l ++ [a]) = pushOutputLine (runBuffer l) a := by
      simp [runBuffer, List.foldl_append]
    rw [hstep, ih, pushOutputLine_eq]
    have hlen : (l.drop (l.length - 1000)).length = l.length - (l.length - 1000) := by
      simp
    by_cases h : l.length < 1000
    · have h0 : l.length - 1000 = 0 := by omega
      have h1 : l.length + 1 - 1000 = 0 := by omega
      have h2 : ¬ (l.drop (l.length - 1000)).length + 1 > 1000 := by
        rw [hlen]; omega
      simp [h0, h1, h2]
    · have h1000 : (l.drop (l.length - 1000)).length = 1000 := by rw [hlen]; omega
      have hgt : (l.drop (l.length - 1000)).length + 1 > 1000 := by omega
      have hsub : (l.drop (l.length - 1000)).length + 1 - 1000 = 1 := by omega
      rw [if_pos hgt, hsub]
      have hle : (1 : Nat) ≤ (l.drop (l.length - 1000)).length := by omega
      rw [List.drop_append_of_le_length hle, List.drop_drop]
      have hle2 : l.length + 1 - 1000 ≤ l.length := by omega
      have hlen2 : (l ++ [a]).length - 1000 = l.length + 1 - 1000 := by
        simp
      rw [hlen2, List.drop_append_of_le_length hle2]
      have : l.length - 1000 + 1 = l.length + 1 - 1000 := by omega
      rw [this]

/-- C5: For every sequence of line appends to a session's output buffer (by
either stream reader), the buffer length never exceeds 1000, and the surviving
contents are exactly the last 1000 appended lines in order: the buffer equals
`xs.drop (xs.length - 1000)`, so once more than 1000 lines have been appended
the oldest surviving entry is the `(total_appended - 1000 + 1)`-th appended
line, eviction is FIFO, and the order of surviving lines is preserved. -/
theorem c5_output_buffer_fifo (xs : List String) :
    (runBuffer xs).length ≤ 1000 ∧
    runBuffer xs = xs.drop (xs.length - 1000) := by
  refine ⟨?_, runBuffer_eq_drop xs⟩
  rw [runBuffer_eq_drop xs]
  simp only [List.length_drop]
  omega

/-!
Listing.  `list_sessions` (process.rs lines 209-222) clones every registered
session's info into a vector and sorts it with
`sort_by(|a, b| b.started_at.cmp(&a.started_at))` (newest first);
`list_active_sessions` (lines 224-236) filters that result to
`Starting`/`Running`.  `Vec::sort_by` is a stable sort, modelled by
`List.mergeSort`; `vals` stands for the sequence of infos read out of the
registry map.
-/

/-- The comparator of `list_sessions`: `b.started_at.cmp(&a.started_at)`
treated as a "may precede" boolean, i.e. `a` may come before `b` exactly when
`b.started_at ≤ a.started_at`. -/
def newestFirst (a b : SessionInfo) : Bool :=
  b.started_at ≤ a.started_at

/-- Embeds `list_sessions`: sort the registry snapshot by `started_at`
descending. -/
def list_sessions (vals : List SessionInfo) : List SessionInfo :=
  vals.mergeSort newestFirst

/-- Embeds `list_active_sessions`: filter the result of `list_sessions` to the
sessions whose status is `Starting` or `Running`. -/
def list_active_sessions (vals : List SessionInfo) : List SessionInfo :=
  (list_sessions vals).filter (fun session => isActiveStatus session.status)

theorem newestFirst_trans (a b c : SessionInfo) :
    newestFirst a b → newestFirst b c → newestFirst a c := by
  simp only [newestFirst, decide_eq_true_eq]
  omega

theorem newestFirst_total (a b : SessionInfo) :
    newestFirst a b || newestFirst b a := by
  simp only [newestFirst, Bool.or_eq_true, decide_eq_true_eq]
  omega

/-- C9: `list_sessions` returns a snapshot of all registered sessions (a
permutation of the registry contents) ordered by `started_at` descending, and
`list_active_sessions` is exactly the subsequence of that list whose status is
`Starting` or `Running`, in the same order. -/
theorem c9_list_sessions_ordering (vals : List SessionInfo) :
    (list_sessions vals).Perm vals ∧
    (list_sessions vals).Pairwise (fun a b => b.started_at ≤ a.started_at) ∧
    list_active_sessions vals =
      (list_sessions vals).filter (fun session => isActiveStatus session.status) ∧
    (list_active_sessions vals).Sublist (list_sessions vals) ∧
    ∀ s, s ∈ list_active_sessions vals ↔
      s ∈ list_sessions vals ∧ isActiveStatus s.status = true := by
  refine ⟨List.mergeSort_perm vals newestFirst, ?_, rfl, List.filter_sublist _, ?_⟩
  · have h := List.sorted_mergeSort newestFirst_trans newestFirst_total vals
    exact h.imp (fun hab => by
      simpa only [newestFirst, decide_eq_true_eq] using hab)
  · intro s
    simp [list_active_sessions, List.mem_filter]

/-!
Registry and cancellation.  The registry `HashMap<String, Arc<Mutex<SessionData>>>`
is modelled as an association list with unique keys (`HashMap` keys are unique);
`cancel_session` (process.rs lines 238-271) locks the session, tries to
`take()` the child handle, and if it got one sets `Cancelled`/`completed_at`
BEFORE killing; only a successful kill updates the statistics.
-/

/-- The session registry: association list from session id to session data. -/
abbrev Registry := List (String × SessionData)

/-- Registry lookup (`sessions.get(session_id)`): the value stored under key
`sid`, if any (`HashMap` keys are unique). -/
def lookupSession (sessions : Registry) (sid : String) : Option SessionData :=
  match sessions with
  | [] => none
  | p :: rest => if p.1 == sid then some p.2 else lookupSession rest sid

/-- In-place mutation of one session's data cell (the effect of writing through
the session's mutex). -/
def updateSession (sessions : Registry) (sid : String) (d : SessionData) : Registry :=
  List.map (fun p => if p.1 == sid then (p.1, d) else p) sessions

/-- Embeds `update_stats_on_completion` (process.rs lines 518-528):
saturating-decrement `active_sessions` (`Nat` subtraction is saturating), then
bump `completed_sessions`/`failed_sessions`; `Cancelled` bumps neither. -/
def update_stats_on_completion (status : SessionStatus) (stats : ProcessStats) :
    ProcessStats :=
  let stats := { stats with active_sessions := stats.active_sessions - 1 }
  match status with
  | .Completed => { stats with completed_sessions := stats.completed_sessions + 1 }
  | .Failed => { stats with failed_sessions := stats.failed_sessions + 1 }
  | _ => stats

/-- Embeds `cancel_session` (process.rs lines 238-271).  `killOk` is the
outcome of `child.kill().await`; `now` is `Utc::now()` at the status write.
Returns the `Result<bool>` together with the registry and statistics after the
call. -/
def cancel_session (sessions : Registry) (stats : ProcessStats) (sid : String)
    (killOk : Bool) (now : Nat) :
    Except String Bool × Registry × ProcessStats :=
  match lookupSession sessions sid with
  | some data =>
    match data.child with
    | some _ =>
      let newInfo := { data.info with
        status := SessionStatus.Cancelled, completed_at := some now }
      let newSessions :=
        updateSession sessions sid { data with info := newInfo, child := none }
      match killOk with
      | true => (.ok true, newSessions, update_stats_on_completion .Cancelled stats)
      | false => (.error "Failed to kill process", newSessions, stats)
    | none => (.ok false, sessions, stats)
  | none => (.ok false, sessions, stats)

theorem lookupSession_updateSession_self (sessions : Registry) (sid : String)
    (d : SessionData) :
    lookupSession (updateSession sessions sid d) sid =
      (lookupSession sessions sid).map (fun _ => d) := by
  induction sessions with
  | nil => rfl
  | cons p rest ih =>
    by_cases hk : p.1 = sid
    · simp [lookupSession, updateSession, hk]
    · have hbeq : (p.1 == sid) = false := by simp [hk]
      simpa [lookupSession, updateSession, hbeq] using ih

theorem lookupSession_updateSession_ne (sessions : Registry) (sid sid2 : String)
    (d : SessionData) (h : sid2 ≠ sid) :
    lookupSession (updateSession sessions sid d) sid2 =
      lookupSession sessions sid2 := by
  induction sessions with
  | nil => rfl
  | cons p rest ih =>
    by_cases hk : p.1 = sid
    · have hbeq : (p.1 == sid) = true := by simp [hk]
      have hbeq2 : (p.1 == sid2) = false := by
        simp only [beq_eq_false_iff_ne, ne_eq]
        intro hc; exact h (by rw [← hc, hk])
      simpa [lookupSession, updateSession, hbeq, hbeq2] using ih
    · have hbeq : (p.1 == sid) = false := by simp [hk]
      by_cases hk2 : p.1 = sid2
      · simp [lookupSession, updateSession, hbeq, hk2, h]
      · have hbeq2 : (p.1 == sid2) = false := by simp [hk2]
        simpa [lookupSession, updateSession, hbeq, hbeq2] using ih

/-- Sample running session used for concrete instantiations. -/
def sampleInfo : SessionInfo :=
  { id := "s1", project_path := "/tmp/proj", model := "default", prompt := "hi",
    status := .Running, pid := some 42, started_at := 10, completed_at := none,
    exit_code := none, claude_session_id := none, output_preview := "" }

/-- Sample running session data: handle still present. -/
def runningData : SessionData :=
  { info := sampleInfo, child := some (), output_buffer := [] }

/-- Sample already-completed session: handle taken, terminal status. -/
def doneData : SessionData :=
  { info := { sampleInfo with
      id := "done",
      status := .Completed,
      completed_at := some 9,
      exit_code := some 0 },
    child := none,
    output_buffer := [] }

/-- Sample statistics value. -/
def sampleStats : ProcessStats :=
  ⟨1, 2, 1, 0, 0⟩

/-- C10: cancelling a session id that is not in the registry returns
`Ok(false)` — the same "not active" result as a cancel that finds the session
but whose handle was already taken — never an error, and in both cases neither
the registry nor the statistics are mutated. -/
theorem c10_cancel_session_not_found (sessions : Registry)
    (stats : ProcessStats) (sid : String) (killOk : Bool) (now : Nat) :
    (lookupSession sessions sid = none →
      cancel_session sessions stats sid killOk now = (.ok false, sessions, stats)) ∧
    (∀ data, lookupSession sessions sid = some data → data.child = none →
      cancel_session sessions stats sid killOk now = (.ok false, sessions, stats)) := by
  constructor
  · intro h
    simp [cancel_session, h]
  · intro data h hchild
    simp [cancel_session, h, hchild]

/-- Witness for C10: in a registry holding only session "done" (whose handle is
already taken), cancelling the absent id "missing" and cancelling "done" both
return `Ok(false)` and leave registry and statistics untouched. -/
theorem c10_cancel_session_not_found_witness :
    cancel_session [("done", doneData)] sampleStats "missing" true 50 =
      (.ok false, [("done", doneData)], sampleStats) ∧
    cancel_session [("done", doneData)] sampleStats "done" true 50 =
      (.ok false, [("done", doneData)], sampleStats) := by
  constructor
  · exact (c10_cancel_session_not_found [("done", doneData)] sampleStats
      "missing" true 50).1 (by decide)
  · exact (c10_cancel_session_not_found [("done", doneData)] sampleStats
      "done" true 50).2 doneData (by decide) (by decide)

/-- C2 counterexample: in `cancel_session`, the status write happens BEFORE the
kill.  At a concrete registry holding the running session "s1", a failing kill
returns an error, yet the session's `status`/`completed_at` pair has changed
(to `Cancelled` / `some 100`), contradicting the claim that a failed
cancellation leaves status and `completed_at` unchanged. -/
theorem c2_cancel_kill_failure_counterexample :
    (cancel_session [("s1", runningData)] sampleStats "s1" false 100).1 =
      Except.error "Failed to kill process" ∧
    ¬ ((lookupSession
          (cancel_session [("s1", runningData)] sampleStats "s1" false 100).2.1
          "s1").map (fun d => (d.info.status, d.info.completed_at)) =
        some (runningData.info.status, runningData.info.completed_at)) := by
  exact ⟨by rfl, by decide⟩

/-- C2 (amended): if `cancel_session` takes the process handle but the kill
fails, the call returns an error and the statistics counters are unchanged,
but the session has already been finalized by the cancel path: its status is
`Cancelled`, `completed_at` is set to the cancellation time, the handle is
consumed, all other fields of the session are unchanged, and every other
session is untouched. -/
theorem c2_cancel_kill_failure (sessions : Registry) (stats : ProcessStats)
    (sid : String) (now : Nat) (data : SessionData) (u : Unit)
    (h : lookupSession sessions sid = some data) (hc : data.child = some u) :
    (cancel_session sessions stats sid false now).1 =
      Except.error "Failed to kill process" ∧
    (cancel_session sessions stats sid false now).2.2 = stats ∧
    lookupSession (cancel_session sessions stats sid false now).2.1 sid =
      some { data with
        info := { data.info with
          status := SessionStatus.Cancelled,
          completed_at := some now },
        child := none } ∧
    ∀ sid2, sid2 ≠ sid →
      lookupSession (cancel_session sessions stats sid false now).2.1 sid2 =
        lookupSession sessions sid2 := by
  refine ⟨?_, ?_, ?_, ?_⟩
  · simp [cancel_session, h, hc]
  · simp [cancel_session, h, hc]
  · simp only [cancel_session, h, hc]
    rw [lookupSession_updateSession_self, h]
    rfl
  · intro sid2 hne
    simp only [cancel_session, h, hc]
    rw [lookupSession_updateSession_ne _ _ _ _ hne]

/-- Witness for C2 (amended) at the concrete running session "s1". -/
theorem c2_cancel_kill_failure_witness :
    (cancel_session [("s1", runningData)] sampleStats "s1" false 100).1 =
      Except.error "Failed to kill process" ∧
    (cancel_session [("s1", runningData)] sampleStats "s1" false 100).2.2 =
      sampleStats ∧
    lookupSession
        (cancel_session [("s1", runningData)] sampleStats "s1" false 100).2.1
        "s1" =
      some { runningData with
        info := { runningData.info with
          status := SessionStatus.Cancelled,
          completed_at := some 100 },
        child := none } ∧
    lookupSession
        (cancel_session [("s1", runningData)] sampleStats "s1" false 100).2.1
        "other" =
      lookupSession [("s1", runningData)] "other" := by
  have h := c2_cancel_kill_failure [("s1", runningData)] sampleStats "s1" 100
    runningData () (by decide) (by decide)
  exact ⟨h.1, h.2.1, h.2.2.1, h.2.2.2 "other" (by decide)⟩

/-!
Cleanup.  `cleanup_completed_sessions` (process.rs lines 306-358) collects the
ids of sessions whose status is terminal and whose `completed_at` is more than
5 whole minutes old, removes them, and then "recomputes" `active_sessions` —
but the source maps each remaining session to an unawaited `async` block,
collects the futures into a `Vec` and takes its length, so the recomputed
value is simply the number of remaining sessions regardless of status.
-/

/-- Whole minutes elapsed between `completed_at = t` and `now`
(`Utc::now().signed_duration_since(completed_at).num_minutes()`; `Nat`
subtraction clamps a backwards clock to 0 minutes, just as a negative
`num_minutes` can never exceed 5). -/
def minutesSince (now t : Nat) : Nat :=
  (now - t) / 60

/-- The removal test of `cleanup_completed_sessions`: terminal status, and
`completed_at` present and more than 5 minutes old. -/
def shouldRemoveSession (now : Nat) (d : SessionData) : Bool :=
  isTerminalStatus d.info.status &&
    (match d.info.completed_at with
     | some t => minutesSince now t > 5
     | none => false)

/-- Embeds `cleanup_completed_sessions`.  Returns the cleaned count, the new
registry, and the new statistics (with the source's unawaited-futures
recomputation of `active_sessions` reproduced literally: a `.map` followed by
`.collect::<Vec<_>>().len()`). -/
def cleanup_completed_sessions (now : Nat) (sessions : Registry)
    (stats : ProcessStats) : Nat × Registry × ProcessStats :=
  let sessionsToRemove :=
    (sessions.filter (fun p => shouldRemoveSession now p.2)).map (fun p => p.1)
  if sessionsToRemove.isEmpty then
    (0, sessions, stats)
  else
    let remaining := sessions.filter (fun p => !(sessionsToRemove.contains p.1))
    let newActive :=
      (remaining.map (fun p => isActiveStatus p.2.info.status)).length
    (sessionsToRemove.length, remaining,
      { stats with active_sessions := newActive })

/-- C8: `cleanup_completed_sessions` removes exactly the sessions whose status
is terminal and whose `completed_at` is more than the 5-minute grace period
old; every other session survives verbatim (same id, same data, same relative
order), and the returned count is the number of removed sessions.  The
hypothesis states the registry's `HashMap` key-uniqueness invariant. -/
theorem c8_cleanup_removes_only_expired_terminal (now : Nat)
    (sessions : Registry) (stats : ProcessStats)
    (hkeys : ∀ p ∈ sessions, ∀ q ∈ sessions, p.1 = q.1 → p = q) :
    (cleanup_completed_sessions now sessions stats).2.1 =
      sessions.filter (fun p => !(shouldRemoveSession now p.2)) ∧
    (cleanup_completed_sessions now sessions stats).1 =
      (sessions.filter (fun p => shouldRemoveSession now p.2)).length := by
  unfold cleanup_completed_sessions
  by_cases hemp :
      ((sessions.filter (fun p => shouldRemoveSession now p.2)).map
        (fun p => p.1)).isEmpty
  · have hnil : sessions.filter (fun p => shouldRemoveSession now p.2) = [] := by
      rcases hf : sessions.filter (fun p => shouldRemoveSession now p.2) with _ | ⟨q, rest⟩
      · exact hf
      · rw [hf] at hemp
        simp [List.isEmpty] at hemp
    have hall : ∀ p ∈ sessions, shouldRemoveSession now p.2 = false := by
      intro p hp
      by_contra hb
      have : p ∈ sessions.filter (fun p => shouldRemoveSession now p.2) := by
        rw [List.mem_filter]
        exact ⟨hp, by revert hb; cases shouldRemoveSession now p.2 <;> simp⟩
      rw [hnil] at this
      exact absurd this (List.not_mem_nil p)
    have hid : sessions.filter (fun p => !(shouldRemoveSession now p.2)) =
        sessions := by
      rw [List.filter_eq_self]
      intro p hp
      rw [hall p hp]
      rfl
    simp [hemp, hnil, hid]
  · have hmem : ∀ p ∈ sessions,
        (((sessions.filter (fun p => shouldRemoveSession now p.2)).map
          (fun p => p.1)).contains p.1) = shouldRemoveSession now p.2 := by
      intro p hp
      rcases hs : shouldRemoveSession now p.2 with _ | _
      · apply Bool.eq_false_iff.mpr
        intro hcon
        rw [List.contains_iff_exists_mem_beq] at hcon
        obtain ⟨b, hb, hbeq⟩ := hcon
        rw [List.mem_map] at hb
        obtain ⟨q, hq, hqe⟩ := hb
        rw [List.mem_filter] at hq
        have hpq : q.1 = p.1 := by
          rw [hqe]
          exact (beq_iff_eq.mp hbeq).symm
        have hqp := hkeys q hq.1 p hp hpq
        rw [hqp] at hq
        rw [hq.2] at hs
        exact Bool.true_eq_false.mp hs
      · rw [List.contains_iff_exists_mem_beq]
        exact ⟨p.1, List.mem_map.mpr ⟨p, List.mem_filter.mpr ⟨hp, hs⟩, rfl⟩,
          by simp⟩
    have hfeq : sessions.filter
        (fun p => !(((sessions.filter (fun p => shouldRemoveSession now p.2)).map
          (fun p => p.1)).contains p.1)) =
        sessions.filter (fun p => !(shouldRemoveSession now p.2)) := by
      apply List.filter_congr
      intro p hp
      rw [hmem p hp]
    simp only [hemp, if_false, Bool.false_eq_true]
    refine ⟨hfeq, ?_⟩
    rw [List.length_map]

/-- Witness for C8 at a concrete registry: an expired terminal session, a
recently terminal session and a running session; only the expired one is
removed. -/
theorem c8_cleanup_removes_only_expired_terminal_witness :
    (cleanup_completed_sessions 1000
        [("done", doneData), ("s1", runningData)] sampleStats).2.1 =
      [("done", doneData), ("s1", runningData)].filter
        (fun p => !(shouldRemoveSession 1000 p.2)) ∧
    (cleanup_completed_sessions 1000
        [("done", doneData), ("s1", runningData)] sampleStats).1 =
      ([("done", doneData), ("s1", runningData)].filter
        (fun p => shouldRemoveSession 1000 p.2)).length := by
  exact c8_cleanup_removes_only_expired_terminal 1000
    [("done", doneData), ("s1", runningData)] sampleStats (by decide)

/-- Sample terminal session that completed recently, i.e. within the 5-minute
grace period before time 1000. -/
def freshDoneData : SessionData :=
  { info := { sampleInfo with
      id := "fresh",
      status := .Failed,
      completed_at := some 980,
      exit_code := some 1 },
    child := none,
    output_buffer := [] }

/-- C4 (code bug): after a cleanup that removes at least one session, the
`active_sessions` statistic should equal the number of remaining sessions in
`Starting`/`Running`, but the source maps the remaining sessions to unawaited
futures and takes the length of that vector, so it stores the TOTAL number of
remaining sessions.  Concretely: at time 1000, a registry holding an expired
`Completed` session "old" and a within-grace `Failed` session "fresh" is
cleaned; one session is removed, zero active sessions remain, yet the code
sets `active_sessions` to 1. -/
theorem c4_cleanup_active_recompute_bug :
    (cleanup_completed_sessions 1000
        [("old", doneData), ("fresh", freshDoneData)] sampleStats).1 = 1 ∧
    (cleanup_completed_sessions 1000
        [("old", doneData), ("fresh", freshDoneData)] sampleStats).2.2.active_sessions = 1 ∧
    ((cleanup_completed_sessions 1000
        [("old", doneData), ("fresh", freshDoneData)] sampleStats).2.1.filter
        (fun p => isActiveStatus p.2.info.status)).length = 0 := by
  decide

/-!
Child environment.  `start_session` (process.rs lines 145-160) builds the
command with `Command::new(claude_path)` and calls `setup_command_environment`
(lines 360-385), which calls `cmd.env(&key, &value)` for every host variable
whose key passes an allow-list test.  Per the semantics of
`std::process::Command` (which `tokio::process::Command` wraps), `env` only
inserts an explicit override on top of the inherited parent environment;
unless `env_clear()` is called the child still inherits every parent variable.
The source never calls `env_clear`.
-/

/-- Models `str::starts_with` on the underlying character list (computable by
the kernel, unlike `String.startsWith`). -/
def strStartsWith (s p : String) : Bool :=
  List.isPrefixOf p.data s.data

/-- The allow-list test of `setup_command_environment`, clause for clause. -/
def allowedEnvKey (key : String) : Bool :=
  key == "PATH" || key == "HOME" || key == "USER" || key == "SHELL" ||
  key == "LANG" || strStartsWith key "LC_" || key == "NODE_PATH" ||
  key == "NVM_DIR" || key == "NVM_BIN" || key == "HOMEBREW_PREFIX" ||
  key == "HOMEBREW_CELLAR" || key == "HTTP_PROXY" || key == "HTTPS_PROXY" ||
  key == "NO_PROXY" || key == "ALL_PROXY"

/-- Environment configuration of a `Command`, following `std::process::Command`:
whether `env_clear()` was called, and the explicit `env` overrides. -/
structure CommandEnv where
  envClear : Bool
  envOverrides : List (String × String)
deriving DecidableEq, Repr

/-- `Command::new` starts with inherit-by-default and no overrides. -/
def newCommandEnv : CommandEnv :=
  { envClear := false, envOverrides := [] }

/-- Embeds `setup_command_environment`: iterate over `std::env::vars()` and
call `cmd.env(key, value)` for every variable passing the allow-list. -/
def setup_command_environment (hostVars : List (String × String))
    (cmd : CommandEnv) : CommandEnv :=
  { cmd with envOverrides :=
      cmd.envOverrides ++ hostVars.filter (fun kv => allowedEnvKey kv.1) }

/-- The environment the spawned child sees, per `std::process::Command`
semantics: the explicit overrides, on top of the full parent environment
unless `env_clear()` was called. -/
def childEnvironment (hostVars : List (String × String)) (cmd : CommandEnv) :
    List (String × String) :=
  if cmd.envClear then
    cmd.envOverrides
  else
    hostVars.filter
        (fun kv => !((cmd.envOverrides.map (fun o => o.1)).contains kv.1)) ++
      cmd.envOverrides

/-- The child environment produced by `start_session` when the host
environment is `hostVars`. -/
def startSessionChildEnv (hostVars : List (String × String)) :
    List (String × String) :=
  childEnvironment hostVars (setup_command_environment hostVars newCommandEnv)

/-- C3 (code bug): the spawned child's environment is NOT restricted to the
allow-list.  `setup_command_environment` only re-inserts allow-listed
variables with `cmd.env`, and `start_session` never calls `env_clear()`, so
the child inherits the entire host environment.  Concretely: with a host
environment of `PATH` plus the non-allow-listed `AWS_SECRET_ACCESS_KEY`, the
secret variable is present in the child environment. -/
theorem c3_child_env_not_allowlisted :
    allowedEnvKey "AWS_SECRET_ACCESS_KEY" = false ∧
    ("AWS_SECRET_ACCESS_KEY", "hunter2") ∈
      startSessionChildEnv
        [("PATH", "/usr/bin"), ("AWS_SECRET_ACCESS_KEY", "hunter2")] := by
  decide

/-!
Lifecycle race.  After `start_session` inserts a session (status `Running`,
handle present) two parties mutate it: the monitor task spawned by
`monitor_session_output` (process.rs lines 387-516), which first takes the
child handle under the session mutex (lines 392-402) and, only if it got one,
waits for process exit and finalizes the session (lines 460-513); and any
`cancel_session` call (lines 238-271), which takes the handle and finalizes
under the same mutex.  Each event below is one such critical section (together
with the stats write that follows it).  Ghost fields count decrements of
`active_sessions` and terminal status writes.
-/

/-- State of one session's lifecycle race, with ghost instrumentation. -/
structure LifecycleState where
  data : SessionData
  stats : ProcessStats
  /-- The monitor task's local variable: its `take()` yielded `Some`. -/
  monHasChild : Bool
  /-- Ghost: a `cancel_session` call's `take()` yielded `Some`. -/
  cancelTookChild : Bool
  /-- Ghost: number of `active_sessions` decrements performed on this
  session's behalf. -/
  decrements : Nat
  /-- Ghost: number of writes of a terminal status to this session. -/
  terminalWrites : Nat
deriving DecidableEq, Repr

/-- Atomic events of the lifecycle race. -/
inductive LifeEv where
  /-- The monitor task's initial `data.child.take()` (process.rs 392-402). -/
  | monTake
  /-- The monitor task's `child.wait().await` returning, plus its
  finalization: `some (success, code)` embeds `Ok(status)`, `none` embeds
  `Err(_)`; `now` is the `Utc::now()` of the completion write. -/
  | monWait (res : Option (Bool × Option Int)) (now : Nat)
  /-- A `cancel_session` call on this session; `killOk` is the outcome of
  `child.kill().await`, `now` the `Utc::now()` of the cancellation write. -/
  | cancel (killOk : Bool) (now : Nat)
deriving DecidableEq, Repr

/-- One atomic step of the lifecycle race, translated from process.rs. -/
def lifeStep (s : LifecycleState) (e : LifeEv) : LifecycleState :=
  match e with
  | .monTake =>
    match s.data.child with
    | some _ =>
      { s with data := { s.data with child := none }, monHasChild := true }
    | none => s
  | .monWait res now =>
    if s.monHasChild then
      match res with
      | some (success, code) =>
        let finalStatus : SessionStatus :=
          if success then .Completed else .Failed
        { s with
          data := { s.data with info := { s.data.info with
            status := finalStatus,
            completed_at := some now,
            exit_code := code } },
          stats := update_stats_on_completion finalStatus s.stats,
          decrements := s.decrements + 1,
          terminalWrites := s.terminalWrites + 1 }
      | none =>
        { s with
          data := { s.data with info := { s.data.info with
            status := SessionStatus.Failed,
            completed_at := some now } },
          stats := update_stats_on_completion .Failed s.stats,
          decrements := s.decrements + 1,
          terminalWrites := s.terminalWrites + 1 }
    else s
  | .cancel killOk now =>
    match s.data.child with
    | some _ =>
      let s1 := { s with
        data := { s.data with
          child := none,
          info := { s.data.info with
            status := SessionStatus.Cancelled,
            completed_at := some now } },
        cancelTookChild := true,
        terminalWrites := s.terminalWrites + 1 }
      match killOk with
      | true =>
        { s1 with
          stats := update_stats_on_completion .Cancelled s1.stats,
          decrements := s1.decrements + 1 }
      | false => s1
    | none => s

/-- The session state right after `start_session` inserts it: status
`Running`, no completion, no exit code, handle present; neither party has
taken the handle yet. -/
def initLifecycle (info : SessionInfo) (buf : List String)
    (stats : ProcessStats) : LifecycleState :=
  { data :=
      { info :=
          { info with
            status := SessionStatus.Running,
            completed_at := none,
            exit_code := none },
        child := some (),
        output_buffer := buf },
    stats := stats,
    monHasChild := false,
    cancelTookChild := false,
    decrements := 0,
    terminalWrites := 0 }

/-- The three interleavings of one `cancel_session` call with the monitor
task's two critical sections (the monitor's take always precedes its wait). -/
inductive Interleaving where
  | cancelFirst
  | cancelBetween
  | cancelAfter
deriving DecidableEq, Repr

/-- The event sequence of each interleaving. -/
def cancelMonitorTrace (i : Interleaving) (res : Option (Bool × Option Int))
    (killOk : Bool) (nMon nCan : Nat) : List LifeEv :=
  match i with
  | .cancelFirst => [.cancel killOk nCan, .monTake, .monWait res nMon]
  | .cancelBetween => [.monTake, .cancel killOk nCan, .monWait res nMon]
  | .cancelAfter => [.monTake, .monWait res nMon, .cancel killOk nCan]

/-- The final state of the race under a given interleaving. -/
def raceOutcome (i : Interleaving) (res : Option (Bool × Option Int))
    (killOk : Bool) (nMon nCan : Nat) (info : SessionInfo) (buf : List String)
    (stats : ProcessStats) : LifecycleState :=
  (cancelMonitorTrace i res killOk nMon nCan).foldl lifeStep
    (initLifecycle info buf stats)

/-- C1 counterexample: the original claim asserts the active counter is
decremented exactly once under any interleaving of a `cancel_session` call
with the monitor task.  In the cancel-first interleaving with a failing kill
at the sample session, the cancel takes the handle and writes the terminal
`Cancelled` status, but `update_stats_on_completion` is never reached and the
monitor finds the slot empty and does nothing — the counter is decremented
zero times, not exactly once. -/
theorem c1_take_once_counterexample :
    (raceOutcome .cancelFirst (some (true, some 0)) false 5 3 sampleInfo []
      sampleStats).cancelTookChild = true ∧
    (raceOutcome .cancelFirst (some (true, some 0)) false 5 3 sampleInfo []
      sampleStats).terminalWrites = 1 ∧
    (raceOutcome .cancelFirst (some (true, some 0)) false 5 3 sampleInfo []
      sampleStats).data.info.status = SessionStatus.Cancelled ∧
    ¬ ((raceOutcome .cancelFirst (some (true, some 0)) false 5 3 sampleInfo []
      sampleStats).decrements = 1) := by
  decide

/-- C1 (amended): under every interleaving of a `cancel_session` call with
the lifecycle-monitor task, exactly one of the two parties obtains the
process handle; only that party writes the terminal status (exactly one
terminal write, matching the taker: `Cancelled` for cancel,
`Completed`/`Failed` for the monitor); and `active_sessions` is decremented
at most once — never twice — and exactly once whenever the taker's kill
succeeds (a cancel that takes the handle but whose kill fails performs no
decrement, which is the only way to decrement zero times). -/
theorem c1_take_once_single_finalizer (i : Interleaving)
    (res : Option (Bool × Option Int)) (killOk : Bool) (nMon nCan : Nat)
    (info : SessionInfo) (buf : List String) (stats : ProcessStats) :
    (raceOutcome i res killOk nMon nCan info buf stats).cancelTookChild ≠
      (raceOutcome i res killOk nMon nCan info buf stats).monHasChild ∧
    (raceOutcome i res killOk nMon nCan info buf stats).data.child = none ∧
    (raceOutcome i res killOk nMon nCan info buf stats).terminalWrites = 1 ∧
    ((raceOutcome i res killOk nMon nCan info buf stats).cancelTookChild = true →
      (raceOutcome i res killOk nMon nCan info buf stats).data.info.status =
        SessionStatus.Cancelled) ∧
    ((raceOutcome i res killOk nMon nCan info buf stats).monHasChild = true →
      (raceOutcome i res killOk nMon nCan info buf stats).data.info.status =
        (match res with
         | some (true, _) => SessionStatus.Completed
         | _ => SessionStatus.Failed)) ∧
    (raceOutcome i res killOk nMon nCan info buf stats).decrements ≤ 1 ∧
    (killOk = true →
      (raceOutcome i res killOk nMon nCan info buf stats).decrements = 1) := by
  cases i <;> cases killOk <;>
    rcases res with _ | ⟨_ | _, code⟩ <;>
      simp [raceOutcome, cancelMonitorTrace, initLifecycle, lifeStep,
        update_stats_on_completion]

/-- Witness for C1: the cancel-first interleaving with a successful kill and a
zero natural exit, at the sample session. -/
theorem c1_take_once_single_finalizer_witness :
    (raceOutcome .cancelFirst (some (true, some 0)) true 5 3 sampleInfo []
      sampleStats).cancelTookChild ≠
      (raceOutcome .cancelFirst (some (true, some 0)) true 5 3 sampleInfo []
        sampleStats).monHasChild ∧
    (raceOutcome .cancelFirst (some (true, some 0)) true 5 3 sampleInfo []
      sampleStats).data.child = none ∧
    (raceOutcome .cancelFirst (some (true, some 0)) true 5 3 sampleInfo []
      sampleStats).terminalWrites = 1 ∧
    ((raceOutcome .cancelFirst (some (true, some 0)) true 5 3 sampleInfo []
      sampleStats).cancelTookChild = true →
      (raceOutcome .cancelFirst (some (true, some 0)) true 5 3 sampleInfo []
        sampleStats).data.info.status = SessionStatus.Cancelled) ∧
    ((raceOutcome .cancelFirst (some (true, some 0)) true 5 3 sampleInfo []
      sampleStats).monHasChild = true →
      (raceOutcome .cancelFirst (some (true, some 0)) true 5 3 sampleInfo []
        sampleStats).data.info.status =
        (match (some (true, some 0) : Option (Bool × Option Int)) with
         | some (true, _) => SessionStatus.Completed
         | _ => SessionStatus.Failed)) ∧
    (raceOutcome .cancelFirst (some (true, some 0)) true 5 3 sampleInfo []
      sampleStats).decrements ≤ 1 ∧
    (true = true →
      (raceOutcome .cancelFirst (some (true, some 0)) true 5 3 sampleInfo []
        sampleStats).decrements = 1) :=
  c1_take_once_single_finalizer .cancelFirst (some (true, some 0)) true 5 3
    sampleInfo [] sampleStats

/-- The per-session completion-field invariant claimed by the specification:
`completed_at` is `None` iff the status is non-terminal
(`Starting`/`Running`), and `exit_code` is `Some` only for
`Completed`/`Failed`. -/
def sessionInvariant (s : LifecycleState) : Prop :=
  (s.data.info.completed_at = none ↔ isActiveStatus s.data.info.status = true) ∧
  (s.data.info.exit_code ≠ none →
    (s.data.info.status = SessionStatus.Completed ∨
     s.data.info.status = SessionStatus.Failed))

/-- Strengthened inductive invariant: additionally, while the handle slot is
still full the session is untouched (`Running`, no exit code, no completion
time), and once the monitor task holds the handle the slot is empty. -/
def lifecycleInvariant (s : LifecycleState) : Prop :=
  sessionInvariant s ∧
  (s.data.child ≠ none →
    s.data.info.status = SessionStatus.Running ∧
    s.data.info.exit_code = none ∧
    s.data.info.completed_at = none) ∧
  (s.monHasChild = true → s.data.child = none)

theorem lifeStep_invariant (s : LifecycleState) (e : LifeEv)
    (h : lifecycleInvariant s) : lifecycleInvariant (lifeStep s e) := by
  obtain ⟨⟨h1, h2⟩, h3, h4⟩ := h
  cases e with
  | monTake =>
    rcases hc : s.data.child with _ | u <;>
      simp_all [lifeStep, lifecycleInvariant, sessionInvariant]
  | monWait res now =>
    rcases hm : s.monHasChild with _ | _
    · simp_all [lifeStep, lifecycleInvariant, sessionInvariant, isActiveStatus]
    · rcases res with _ | ⟨_ | _, code⟩ <;>
        simp_all [lifeStep, lifecycleInvariant, sessionInvariant, isActiveStatus]
  | cancel killOk now =>
    rcases hc : s.data.child with _ | u
    · simp_all [lifeStep, lifecycleInvariant, sessionInvariant]
    · cases killOk <;>
        simp_all [lifeStep, lifecycleInvariant, sessionInvariant, isActiveStatus]

theorem foldl_lifeStep_invariant (evs : List LifeEv) (s : LifecycleState)
    (h : lifecycleInvariant s) : lifecycleInvariant (evs.foldl lifeStep s) := by
  induction evs generalizing s with
  | nil => exact h
  | cons e rest ih => exact ih _ (lifeStep_invariant s e h)

theorem initLifecycle_invariant (info : SessionInfo) (buf : List String)
    (stats : ProcessStats) : lifecycleInvariant (initLifecycle info buf stats) := by
  simp [initLifecycle, lifecycleInvariant, sessionInvariant, isActiveStatus]

/-- C6: in every state reachable from the post-insert session state by any
sequence of monitor-take, monitor-finalize and cancel events, `completed_at`
is `None` iff the session's status is non-terminal (`Starting`/`Running`),
and `exit_code` is `Some` only when the status is `Completed` or `Failed`
(never via the cancel path, which writes `Cancelled` without touching
`exit_code`).  Registry-level operations never mutate a stored session's
fields, so these are all the mutations a registered session undergoes. -/
theorem c6_completion_fields_invariant (evs : List LifeEv)
    (info : SessionInfo) (buf : List String) (stats : ProcessStats) :
    sessionInvariant (evs.foldl lifeStep (initLifecycle info buf stats)) :=
  (foldl_lifeStep_invariant evs (initLifecycle info buf stats)
    (initLifecycle_invariant info buf stats)).1

/-- Witness for C6: a natural-exit trace at the sample session. -/
theorem c6_completion_fields_invariant_witness :
    sessionInvariant
      (([LifeEv.monTake, LifeEv.monWait (some (true, some 0)) 77]).foldl
        lifeStep (initLifecycle sampleInfo [] sampleStats)) :=
  c6_completion_fields_invariant
    [LifeEv.monTake, LifeEv.monWait (some (true, some 0)) 77]
    sampleInfo [] sampleStats

/-!
Delivery-layer polling.  `monitor_session_output` in websocket.rs (lines
381-444) runs, per watched session, a loop that every 500 ms reads the output
buffer, emits one `SessionOutput` event per line beyond the last-seen length
(in buffer order), then reads the session: on a terminal status it emits one
`SessionCompleted` event and stops; on a missing session it stops silently.
One `PollObs` is the pair of snapshots the loop body reads on one iteration.
-/

/-- The poller's loop state: `last_line_count` and the `monitoring` flag. -/
structure PollState where
  lastLineCount : Nat
  monitoring : Bool
deriving DecidableEq, Repr

/-- Outbound websocket events emitted by the polling task. -/
inductive WsEvent where
  | sessionOutput (line : String)
  | sessionCompleted (status : SessionStatus) (exitCode : Option Int)
deriving DecidableEq, Repr

/-- What one loop iteration observes: the `get_session_output` snapshot and
the `get_session` snapshot (status and exit code), each `none` when the
session id is unknown. -/
structure PollObs where
  output : Option (List String)
  session : Option (SessionStatus × Option Int)
deriving DecidableEq, Repr

/-- The "check for new output" half of the loop body (websocket.rs lines
401-420): events for `output[last_line_count..]` and the updated count. -/
def pollOutputEvents (st : PollState) (outputOpt : Option (List String)) :
    List WsEvent × Nat :=
  match outputOpt with
  | some output =>
    if output.length > st.lastLineCount then
      ((output.drop st.lastLineCount).map WsEvent.sessionOutput, output.length)
    else
      ([], st.lastLineCount)
  | none => ([], st.lastLineCount)

/-- One full loop iteration (websocket.rs lines 400-438): output diff, then
the completion check. -/
def pollIter (st : PollState) (obs : PollObs) : List WsEvent × PollState :=
  let oe := pollOutputEvents st obs.output
  match obs.session with
  | some (status, code) =>
    if isActiveStatus status then
      (oe.1, { lastLineCount := oe.2, monitoring := true })
    else
      (oe.1 ++ [WsEvent.sessionCompleted status code],
        { lastLineCount := oe.2, monitoring := false })
  | none => (oe.1, { lastLineCount := oe.2, monitoring := false })

/-- All events emitted by the polling task over a sequence of observations:
the `while monitoring` loop. -/
def pollRun (st : PollState) (obss : List PollObs) : List WsEvent :=
  match obss with
  | [] => []
  | o :: rest =>
    if st.monitoring then
      let r := pollIter st o
      r.1 ++ pollRun r.2 rest
    else []

/-- Recognizes a `SessionCompleted` event. -/
def isCompletedEvent : WsEvent → Bool
  | .sessionCompleted _ _ => true
  | _ => false

theorem countP_completed_output_events (out : List String) (n : Nat) :
    ((out.drop n).map WsEvent.sessionOutput).countP isCompletedEvent = 0 := by
  rw [List.countP_eq_zero]
  intro a ha
  rw [List.mem_map] at ha
  obtain ⟨l, _, rfl⟩ := ha
  simp [isCompletedEvent]

theorem pollOutputEvents_fst (st : PollState) (out : List String) :
    (pollOutputEvents st (some out)).1 =
      (out.drop st.lastLineCount).map WsEvent.sessionOutput := by
  unfold pollOutputEvents
  by_cases h : out.length > st.lastLineCount
  · simp [h]
  · have hnil : out.drop st.lastLineCount = [] :=
      List.drop_eq_nil_of_le (by omega)
    simp [h, hnil]

theorem pollOutputEvents_snd (st : PollState) (out : List String) :
    (pollOutputEvents st (some out)).2 = max st.lastLineCount out.length := by
  unfold pollOutputEvents
  by_cases h : out.length > st.lastLineCount
  · simp only [h, if_true]
    omega
  · simp only [h, if_false]
    omega

theorem pollOutputEvents_countP (st : PollState)
    (outputOpt : Option (List String)) :
    (pollOutputEvents st outputOpt).1.countP isCompletedEvent = 0 := by
  rcases outputOpt with _ | out
  · rfl
  · rw [pollOutputEvents_fst]
    exact countP_completed_output_events out st.lastLineCount

theorem pollRun_stopped (n : Nat) (obss : List PollObs) :
    pollRun { lastLineCount := n, monitoring := false } obss = [] := by
  cases obss <;> simp [pollRun]

theorem pollRun_countP_le_one (obss : List PollObs) (st : PollState) :
    (pollRun st obss).countP isCompletedEvent ≤ 1 := by
  induction obss generalizing st with
  | nil => simp [pollRun]
  | cons o rest ih =>
    rcases hm : st.monitoring with _ | _
    · simp [pollRun, hm]
    · rcases o with ⟨outputOpt, session⟩
      rcases session with _ | ⟨status, code⟩
      · simp [pollRun, hm, pollIter, pollRun_stopped, List.countP_append,
          pollOutputEvents_countP]
      · rcases hA : isActiveStatus status with _ | _
        · simp [pollRun, hm, pollIter, hA, pollRun_stopped,
            List.countP_append, pollOutputEvents_countP, isCompletedEvent]
        · have := ih ⟨(pollOutputEvents st outputOpt).2, true⟩
          simp only [pollRun, hm, if_true, pollIter, hA, List.countP_append,
            pollOutputEvents_countP] at *
          omega

/-- C7: the polling task's delivery protocol.  (1) On an iteration that
observes buffer `out` and a live session record, the task emits exactly one
`sessionOutput` event per buffer line beyond the last-seen length, in buffer
order, followed — exactly when the observed status is terminal — by one
`sessionCompleted` event carrying that status and exit code, after which
`monitoring` is false; the last-seen count advances to the buffer length.
(2) Once monitoring is off, no further events are ever emitted.  (3) Over any
whole run, at most one `sessionCompleted` event is emitted. -/
theorem c7_poll_events_per_iteration_and_single_completion (st : PollState)
    (out : List String) (status : SessionStatus) (code : Option Int) (n : Nat)
    (obss : List PollObs) :
    pollIter st { output := some out, session := some (status, code) } =
      ((out.drop st.lastLineCount).map WsEvent.sessionOutput ++
        (if isActiveStatus status then []
         else [WsEvent.sessionCompleted status code]),
        { lastLineCount := max st.lastLineCount out.length,
          monitoring := isActiveStatus status }) ∧
    pollRun { lastLineCount := n, monitoring := false } obss = [] ∧
    (pollRun st obss).countP isCompletedEvent ≤ 1 := by
  refine ⟨?_, pollRun_stopped n obss, pollRun_countP_le_one obss st⟩
  have h1 := pollOutputEvents_fst st out
  have h2 := pollOutputEvents_snd st out
  rcases hA : isActiveStatus status with _ | _ <;>
    simp [pollIter, hA, h1, h2]

end Claudia
